import Mathlib

/-!
Verification of the Aunis scripting core (src/Scripting.py, src/Aunis.py)
against its specification.  The Python source is embedded shallowly:

* Python `str.split()` (whitespace split, empties dropped) is `pySplit`;
  `str.strip()` is `pyStrip`; `str.splitlines()` is modelled as splitting
  on the newline character (scripts in this program use plain newlines:
  the loader strips carriage returns before a script reaches the parser);
  `str.isdigit()` is `pyIsDigit` (ASCII digits); `int(...)` on a digit
  string is `pyToInt`.
* The numeric conversion types of the registry (`np.float32` …) and the
  instrument driver are external: a converted user token is kept
  symbolically as `Value.conv ty tok`, a Python default literal as
  `Value.lit`; how Python's `str()` prints such a value is a parameter
  (`showV`) of the execution engine.
* Fallible Python code (exceptions) is embedded with `Option` / `Except`.
-/

namespace Aunis

/-- A resolved argument value: `conv ty tok` is the result of applying the
registered conversion type `ty` to the user token `tok`
(`arg_info["type"](user_values[user_index])` in `_parse_block`); `lit s`
is a registry default, recorded by its Python source literal. -/
inductive Value where
  | conv (ty : String) (tok : String)
  | lit (s : String)
deriving DecidableEq, Repr

/-- One entry of a registry `"args"` dict: label, conversion type (by its
Python name), default value, and the `"user"` flag. -/
structure ArgSpec where
  label : String
  ty : String
  default : Value
  user : Bool
deriving DecidableEq, Repr

/-- One registry entry: the bound callable (by its qualified Python name)
and the ordered argument dict. -/
structure CommandSpec where
  funcName : String
  args : List ArgSpec
deriving DecidableEq, Repr

/-- Helper of `pySplit`: scan the characters, collecting the current token
in reverse in `acc`; whitespace closes a token. -/
def pySplitAux : List Char → List Char → List String
  | [], acc => if acc = [] then [] else [String.mk acc.reverse]
  | c :: cs, acc =>
    if c.isWhitespace then
      if acc = [] then pySplitAux cs [] else String.mk acc.reverse :: pySplitAux cs []
    else
      pySplitAux cs (c :: acc)

/-- Python `str.split()` with no separator: split on whitespace runs,
discarding empty pieces. -/
def pySplit (s : String) : List String :=
  pySplitAux s.data []

/-- Helper of `splitOnChar`: split at every occurrence of `sep`, keeping
empty pieces (Python `str.split(sep)` with a one-character separator). -/
def splitOnCharAux (sep : Char) : List Char → List Char → List String
  | [], acc => [String.mk acc.reverse]
  | c :: cs, acc =>
    if c = sep then String.mk acc.reverse :: splitOnCharAux sep cs []
    else splitOnCharAux sep cs (c :: acc)

/-- Python `str.split(sep)` for a one-character separator `sep`. -/
def splitOnChar (sep : Char) (s : String) : List String :=
  splitOnCharAux sep s.data []

/-- Drop leading whitespace characters. -/
def dropWS : List Char → List Char
  | [] => []
  | c :: cs => if c.isWhitespace then dropWS cs else c :: cs

/-- Python `str.strip()`: remove leading and trailing whitespace. -/
def pyStrip (s : String) : String :=
  String.mk ((dropWS (dropWS s.data).reverse).reverse)

/-- Python `str.startswith(pre)`. -/
def pyStartsWith (s pre : String) : Bool :=
  pre.data.isPrefixOf s.data

/-- Python `str.isdigit()` for ASCII text: nonempty and all characters
decimal digits. -/
def pyIsDigit (s : String) : Bool :=
  s ≠ "" && s.data.all Char.isDigit

/-- Python `int(...)` on a digit string. -/
def pyToInt (s : String) : Nat :=
  s.data.foldl (fun n c => 10 * n + (c.toNat - 48)) 0

/-- The line preprocessing shared by `check_syntax` and `parse_commands`:
`[line.strip() for line in script.splitlines() if line.strip()]`. -/
def preprocess (script : String) : List String :=
  ((splitOnChar (Char.ofNat 10) script).map pyStrip).filter (fun l => l ≠ "")

/-- Error text `f"Line {line_num}: invalid loop syntax → {line}"`. -/
def invalidLoopMsg (n : Nat) (line : String) : String :=
  "Line " ++ toString n ++ ": invalid loop syntax → " ++ line

/-- Error text `f"Line {line_num}: 'end' without matching 'loop' → {line}"`. -/
def endNoLoopMsg (n : Nat) (line : String) : String :=
  "Line " ++ toString n ++ ": 'end' without matching 'loop' → " ++ line

/-- Error text `f"Line {line_num}: unknown command → {line}"`. -/
def unknownCmdMsg (n : Nat) (line : String) : String :=
  "Line " ++ toString n ++ ": unknown command → " ++ line

/-- Error text of the wrong-argument-count message of `check_syntax`. -/
def wrongArgsMsg (n : Nat) (cmd : String) (expected given : Nat) (line : String) : String :=
  "Line " ++ toString n ++ ": wrong number of arguments for '" ++ cmd ++
    "'. Expected " ++ toString expected ++ ", got " ++ toString given ++ " → " ++ line

/-- Error text `"Unclosed 'loop' detected"`. -/
def unclosedMsg : String := "Unclosed 'loop' detected"

/-- `FUNCTION_REGISTRY` of src/Scripting.py: command name, bound callable,
ordered argument specs, in source order. -/
def FUNCTION_REGISTRY : List (String × CommandSpec) := [
  ("bias.Set", ⟨"Nanonis.Bias_Set",
    [⟨"Bias value (V)", "np.float32", .lit "0.5", true⟩]⟩),
  ("bias.Get", ⟨"Nanonis.Bias_Get", []⟩),
  ("current.Set", ⟨"Nanonis.ZCtrl_SetpntSet",
    [⟨"Z-Controller setpoint", "np.float32", .lit "100e-12", true⟩]⟩),
  ("current.Get", ⟨"Nanonis.ZCtrl_SetpntGet", []⟩),
  ("fb.Set", ⟨"Nanonis.ZCtrl_OnOffSet",
    [⟨"Z-Controller status", "np.uint32", .lit "1", true⟩]⟩),
  ("fb.Get", ⟨"Nanonis.ZCtrl_OnOffGet", []⟩),
  ("biasSpec.Start", ⟨"Nanonis.BiasSpectr_Start",
    [⟨"Get data", "np.uint32", .lit "0", false⟩,
     ⟨"Save base name", "str", .lit "", false⟩]⟩),
  ("biasSpec.LimitsGet", ⟨"Nanonis.BiasSpectr_LimitsGet", []⟩),
  ("biasSpec.LimitsSet", ⟨"Nanonis.BiasSpectr_LimitsSet",
    [⟨"Start value (V)", "np.float32", .lit "0.1", true⟩,
     ⟨"End value (V)", "np.float32", .lit "1.0", true⟩]⟩),
  ("scan.Start", ⟨"Nanonis.Scan_Action",
    [⟨"Scan action", "np.uint16", .lit "0", false⟩,
     ⟨"Scan direction", "np.uint32", .lit "0", false⟩]⟩),
  ("scan.Wait", ⟨"Nanonis.Scan_WaitEndOfScan",
    [⟨"Timeout (ms)", "np.int32", .lit "-1", false⟩]⟩),
  ("lockin.PhaseSet", ⟨"Nanonis.LockIn_DemodPhasSet",
    [⟨"Demodulator number", "np.int32", .lit "1", false⟩,
     ⟨"Phase (deg)", "np.float32", .lit "0.0", true⟩]⟩),
  ("lockin.PhaseGet", ⟨"Nanonis.LockIn_DemodPhasGet",
    [⟨"Demodulator number", "np.int32", .lit "1", false⟩]⟩),
  ("lockin.AmplSet", ⟨"Nanonis.LockIn_ModAmpSet",
    [⟨"Modulator number", "np.int32", .lit "1", false⟩,
     ⟨"Amplitude", "np.float32", .lit "1e-3", true⟩]⟩),
  ("lockin.AmplGet", ⟨"Nanonis.LockIn_ModAmpGet",
    [⟨"Modulator number", "np.int32", .lit "1", false⟩]⟩),
  ("lockin.FreqSet", ⟨"Nanonis.LockIn_ModPhasFreqSet",
    [⟨"Modulator number", "np.int32", .lit "1", false⟩,
     ⟨"Frequency (Hz)", "np.float32", .lit "187.0", true⟩]⟩),
  ("lockin.FreqGet", ⟨"Nanonis.LockIn_ModPhasFreqGet",
    [⟨"Modulator number", "np.int32", .lit "1", false⟩]⟩),
  ("atomtrack.ModSet", ⟨"Nanonis.AtomTrack_CtrlSet",
    [⟨"AT control", "np.uint16", .lit "0", false⟩,
     ⟨"Status", "np.uint16", .lit "0", true⟩]⟩),
  ("atomtrack.TrackSet", ⟨"Nanonis.AtomTrack_CtrlSet",
    [⟨"AT control", "np.uint16", .lit "1", false⟩,
     ⟨"Status", "np.uint16", .lit "0", true⟩]⟩),
  ("withdraw", ⟨"Nanonis.ZCtrl_Withdraw",
    [⟨"Wait until finished", "np.uint32", .lit "1", false⟩,
     ⟨"punTimeout (ms)ct", "np.int32", .lit "-1", false⟩]⟩),
  ("drift.Get", ⟨"Nanonis.Piezo_DriftCompGet", []⟩),
  ("drift.Set", ⟨"Nanonis.Piezo_DriftCompSet",
    [⟨"Compensation status", "np.uint32", .lit "1", true⟩,
     ⟨"Vx (m/s)", "np.float32", .lit "0.0", true⟩,
     ⟨"Vy (m/s)", "np.float32", .lit "0.0", true⟩,
     ⟨"Vz (m/s)", "np.float32", .lit "0.0", true⟩,
     ⟨"Saturation limit (%)", "np.float32", .lit "10.0", false⟩]⟩),
  ("xy.Get", ⟨"ScriptingInterface.getXY", []⟩),
  ("xy.Set", ⟨"ScriptingInterface.setZ",
    [⟨"x (m)", "np.float64", .lit "0.0", true⟩,
     ⟨"y (m)", "np.float64", .lit "0.0", true⟩]⟩),
  ("z.Get", ⟨"ScriptingInterface.getZ", []⟩),
  ("z.Set", ⟨"ScriptingInterface.setZ",
    [⟨"z (m)", "np.float32", .lit "0.0", true⟩]⟩),
  ("x.Add", ⟨"ScriptingInterface.addX",
    [⟨"dx (m)", "np.float64", .lit "0.0", true⟩]⟩),
  ("y.Add", ⟨"ScriptingInterface.addY",
    [⟨"dy (m)", "np.float64", .lit "0.0", true⟩]⟩),
  ("z.Add", ⟨"ScriptingInterface.addZ",
    [⟨"dz (m)", "np.float32", .lit "0.0", true⟩]⟩),
  ("wait", ⟨"ScriptingInterface.wait",
    [⟨"Time (s)", "np.uint32", .lit "5", true⟩]⟩),
  ("bias.Add", ⟨"ScriptingInterface.addBias",
    [⟨"Bias value (V)", "np.float32", .lit "0.1", true⟩]⟩),
  ("current.Add", ⟨"ScriptingInterface.addCurrent",
    [⟨"Current value (A)", "np.float32", .lit "50e-12", true⟩]⟩),
  ("drift.correctZ", ⟨"ScriptingInterface.correctZDrift",
    [⟨"Time (s)", "np.uint32", .lit "5", true⟩]⟩),
  ("QuPe.FreqSet", ⟨"<lambda>",
    [⟨"Frequency (Hz)", "np.float32", .lit "1e9", true⟩]⟩)]

/-- Dictionary lookup `FUNCTION_REGISTRY[name]` / `name in FUNCTION_REGISTRY`. -/
def registryLookup (name : String) : Option CommandSpec :=
  FUNCTION_REGISTRY.lookup name

/-- The number of userSupplied argument slots of a command:
`sum(1 for a in cmd_info["args"].values() if a["user"])`. -/
def userArgCount (info : CommandSpec) : Nat :=
  (info.args.filter (fun a => a.user)).length

/-- One iteration of the `check_syntax` line loop: the errors recorded for
this line and the updated loop stack. -/
def checkLine (lineNum : Nat) (line : String) (stack : List String) :
    List String × List String :=
  if pyStartsWith line "loop" then
    let parts := pySplit line
    if parts.length ≠ 2 || !pyIsDigit (parts.getD 1 "") then
      ([invalidLoopMsg lineNum line], stack)
    else
      ([], "loop" :: stack)
  else if line = "end" then
    match stack with
    | [] => ([endNoLoopMsg lineNum line], [])
    | _ :: rest => ([], rest)
  else
    let parts := pySplit line
    let cmdName := parts.headD ""
    match registryLookup cmdName with
    | none => ([unknownCmdMsg lineNum line], stack)
    | some info =>
      let expected := userArgCount info
      let given := parts.length - 1
      if given ≠ expected then
        ([wrongArgsMsg lineNum cmdName expected given line], stack)
      else
        ([], stack)

/-- The `check_syntax` scan over all lines, numbering from `n`, threading
the loop stack; returns the recorded errors and the final stack. -/
def scanLines : List String → Nat → List String → List String × List String
  | [], _, stack => ([], stack)
  | l :: rest, n, stack =>
    let r1 := checkLine n l stack
    let r2 := scanLines rest (n + 1) r1.2
    (r1.1 ++ r2.1, r2.2)

/-- The body of `check_syntax` on the preprocessed line list: scan all
lines, then append `Unclosed 'loop' detected` when the stack is
nonempty. -/
def checkSyntaxLines (lines : List String) : List String :=
  let r := scanLines lines 1 []
  if r.2 = [] then r.1 else r.1 ++ [unclosedMsg]

/-- `ScriptingInterface.check_syntax`: validate a script, returning the
complete error list. -/
def checkSyntax (script : String) : List String :=
  checkSyntaxLines (preprocess script)

/-- The first component of `TCPClient.query`'s result: the Python code
returns a plain string on the malformed-response and exception paths but a
one-element list on the success path. -/
inductive ErrField where
  | str (s : String)
  | list (l : List String)
deriving DecidableEq, Repr

/-- The response handling of `TCPClient.query` after a successful network
exchange, as a function of the accumulated wire text:
`decoded = response_data.decode().strip()`, split on `"|"`, three fields
required, `None` mapped to empty string / empty list. -/
def query (wire : String) : ErrField × String × List String :=
  let decoded := pyStrip wire
  match splitOnChar '|' decoded with
  | [p0, p1, p2] =>
    let error := if p0 = "None" then "" else p0
    let response := if p1 = "None" then "" else p1
    let vars := if p2 = "None" then [] else splitOnChar ',' p2
    (.list [error], response, vars)
  | _ => (.str "Malformed response", decoded, [])

/-- A parsed command, one element of the flat list `_parse_block` builds:
the command name as written, the bound callable (by qualified name), and
the resolved positional argument values. -/
structure ParsedCommand where
  cmd : String
  funcName : String
  args : List Value
deriving DecidableEq, Repr

/-- The argument resolution loop of `_parse_block`: walk the ArgSpecs in
declared order; a userSupplied slot consumes the next user token and
converts it, any other slot takes its default.  `none` models the
IndexError raised when the user tokens run out. -/
def resolveArgs : List ArgSpec → List String → Option (List Value)
  | [], _ => some []
  | a :: rest, toks =>
    if a.user then
      match toks with
      | [] => none
      | t :: ts => (resolveArgs rest ts).map (fun vs => Value.conv a.ty t :: vs)
    else
      (resolveArgs rest toks).map (fun vs => a.default :: vs)

/-- The command-line branch of `_parse_block`: look the first token up in
the registry (`none` models the KeyError on an unknown name) and resolve
the arguments. -/
def parseCmd (line : String) : Option ParsedCommand :=
  let parts := pySplit line
  let cmdName := parts.headD ""
  match registryLookup cmdName with
  | none => none
  | some info =>
    match resolveArgs info.args parts.tail with
    | none => none
    | some args => some ⟨cmdName, info.funcName, args⟩

/-- Fuel-indexed `ScriptingInterface._parse_block`.  The Python while loop
over `lines[index:]` becomes recursion on the remaining lines; a call
returns the parsed block and the lines after its matching `end`.  On a
loop line `_, count_str = line.split()` requires exactly two pieces
(otherwise a ValueError, modelled by `none`); the body is appended
`count` times (`result.extend(block * count)`).  Fuel 0 yields `none`;
`parseBlockLines` below supplies enough fuel for any input. -/
def parseBlockF : Nat → List String → Option (List ParsedCommand × List String)
  | 0, _ => none
  | _ + 1, [] => some ([], [])
  | fuel + 1, l :: rest =>
    if pyStartsWith l "loop" then
      match pySplit l with
      | [_, countStr] =>
        (parseBlockF fuel rest).bind (fun br =>
          (parseBlockF fuel br.2).bind (fun tr =>
            some ((List.replicate (pyToInt countStr) br.1).flatten ++ tr.1, tr.2)))
      | _ => none
    else if l = "end" then
      some ([], rest)
    else
      (parseCmd l).bind (fun c =>
        (parseBlockF fuel rest).bind (fun tr => some (c :: tr.1, tr.2)))

/-- `_parse_block` on a line list: `parseBlockF` with enough fuel. -/
def parseBlockLines (lines : List String) : Option (List ParsedCommand × List String) :=
  parseBlockF (lines.length + 1) lines

/-- `ScriptingInterface.parse_commands`: validate first and return
`(None, errors)` when the error list is nonempty, otherwise parse.  The
outer `Option` models an exception escaping `_parse_block` (impossible
for validated scripts); the inner one is Python's `None`. -/
def parse_commands (script : String) :
    Option (Option (List ParsedCommand) × List String) :=
  let errors := checkSyntax script
  if errors ≠ [] then some (none, errors)
  else
    match parseBlockLines (preprocess script) with
    | some (cmds, _) => some (some cmds, [])
    | none => none

/-- The result triple `(errorString, response, variables)` a capability
returns. -/
abbrev PyResult := String × String × List String

/-- One emitted log record: kind (`Request` or `Response`), message text,
status (the timestamp is added by the external log sink). -/
structure LogEntry where
  kind : String
  text : String
  status : String
deriving DecidableEq, Repr

/-- What a script run emits: the status transitions, the error-message
popups, the log entries, and the commands whose capability was invoked. -/
structure RunOutcome where
  statuses : List String
  errorMsgs : List String
  logs : List LogEntry
  invoked : List ParsedCommand
deriving DecidableEq, Repr

/-- Python `sep.join(pieces)`. -/
def joinWith (sep : String) : List String → String
  | [] => ""
  | a :: as => as.foldl (fun acc x => acc ++ sep ++ x) a

/-- The command loop of `runScriptThread.execute`.  `oracle` stands for
invoking a command's bound capability (external instrument or network
state), `showV` for Python `str()` on an argument value, and `cancel i`
is the value of the `cancelScript` flag when it is read before iteration
`i`.  Returns the emitted log entries and the invoked commands; an
iteration that sees the flag set invokes nothing and logs nothing (the
Python loop keeps iterating but its body is skipped). -/
def execLoop (oracle : ParsedCommand → PyResult) (showV : Value → String)
    (cancel : Nat → Bool) :
    List ParsedCommand → Nat → List LogEntry × List ParsedCommand
  | [], _ => ([], [])
  | c :: rest, i =>
    if cancel i = false then
      let r := oracle c
      let errorString := r.1
      let vars := r.2.2
      let status := if errorString.length ≠ 0 then errorString else "OK"
      let requestEntry : LogEntry :=
        ⟨"Request", c.cmd ++ " " ++ joinWith " " (c.args.map showV), status⟩
      let responseEntries : List LogEntry :=
        if vars.length > 0 then [⟨"Response", "[" ++ joinWith ", " vars ++ "]", ""⟩]
        else []
      let more := execLoop oracle showV cancel rest (i + 1)
      (requestEntry :: responseEntries ++ more.1, c :: more.2)
    else
      execLoop oracle showV cancel rest (i + 1)

/-- `runScriptThread.execute`: emit `Running`, run the loop, emit
`Finished`. -/
def executeEngine (oracle : ParsedCommand → PyResult) (showV : Value → String)
    (cancel : Nat → Bool) (cmds : List ParsedCommand) : RunOutcome :=
  let r := execLoop oracle showV cancel cmds 0
  ⟨["Running", "Finished"], [], r.1, r.2⟩

/-- The error popup text built in `runScriptThread.run`. -/
def syntaxErrorsMsg (errors : List String) : String :=
  "SYNTAX ERRORS:\n" ++ String.join (errors.map (fun e => e ++ "\n"))

/-- `runScriptThread.run`: parse, and on any syntax error emit the popup
and the `Syntax errors` status without executing; otherwise execute.
`none` models an exception escaping `parse_commands` (the thread dies
without emitting); when `errors` is empty `parse_commands` always
produced a command list, so the `getD []` default is never used. -/
def runThread (oracle : ParsedCommand → PyResult) (showV : Value → String)
    (cancel : Nat → Bool) (script : String) : Option RunOutcome :=
  match parse_commands script with
  | none => none
  | some (commandsOpt, errors) =>
    if errors ≠ [] then
      some ⟨["Syntax errors"], [syntaxErrorsMsg errors], [], []⟩
    else
      some (executeEngine oracle showV cancel (commandsOpt.getD []))

/-- The exceptions `ScriptingInterface.execute` can raise itself:
iterating over `None` (TypeError) and returning never-bound locals
(NameError, concretely UnboundLocalError). -/
inductive PyErr where
  | typeError
  | nameError
deriving DecidableEq, Repr

/-- `ScriptingInterface.execute`: parse, iterate the command list invoking
every capability, and return the result triple of the last command.  With
syntax errors `commands` is `None` and the for-loop raises a TypeError;
with an empty command list the result locals are never bound and the
return raises a NameError.  The outer `Option` models an exception
escaping `parse_commands` itself. -/
def executeSI (oracle : ParsedCommand → PyResult) (script : String) :
    Option (Except PyErr PyResult) :=
  match parse_commands script with
  | none => none
  | some (none, _) => some (.error .typeError)
  | some (some cmds, _) =>
    let results := cmds.map oracle
    match results.getLast? with
    | none => some (.error .nameError)
    | some r => some (.ok r)

/-- The parameter counts (excluding `self`) of the `ScriptingInterface`
methods bound by registry entries, read off their `def` signatures in
src/Scripting.py. -/
def siArity : String → Option Nat
  | "ScriptingInterface.getXY" => some 0
  | "ScriptingInterface.getZ" => some 0
  | "ScriptingInterface.setXY" => some 2
  | "ScriptingInterface.setZ" => some 1
  | "ScriptingInterface.addX" => some 1
  | "ScriptingInterface.addY" => some 1
  | "ScriptingInterface.addZ" => some 1
  | "ScriptingInterface.addBias" => some 1
  | "ScriptingInterface.addCurrent" => some 1
  | "ScriptingInterface.wait" => some 1
  | "ScriptingInterface.correctZDrift" => some 1
  | _ => none

/-- The log entries `runScriptThread.execute` emits for one executed
command (the spec's per-command description, used to state what the
engine loop produces): one Request entry, then one Response entry
exactly when the returned variable list is nonempty. -/
def logsFor (oracle : ParsedCommand → PyResult) (showV : Value → String)
    (c : ParsedCommand) : List LogEntry :=
  ⟨"Request", c.cmd ++ " " ++ joinWith " " (c.args.map showV),
    if (oracle c).1.length ≠ 0 then (oracle c).1 else "OK"⟩ ::
  (if (oracle c).2.2.length > 0 then
    [⟨"Response", "[" ++ joinWith ", " (oracle c).2.2 ++ "]", ""⟩]
   else [])

mutual
/-- The spec's ScriptNode: a command line, or a loop block with its count
token and body.  The count is kept as the script token; its numeric value
is `pyToInt countStr`. -/
inductive ScriptNode where
  | cmdNode (line : String)
  | loopNode (countStr : String) (body : ScriptForest)
/-- An ordered sequence of ScriptNodes (a script, or a loop body). -/
inductive ScriptForest where
  | nil
  | cons (n : ScriptNode) (ns : ScriptForest)
end

mutual
/-- The script lines a node denotes: a command line stands alone, a loop
block is `loop <count>`, its body lines, then `end`. -/
def renderNode : ScriptNode → List String
  | .cmdNode line => [line]
  | .loopNode countStr body => ("loop " ++ countStr) :: (renderForest body ++ ["end"])
/-- The script lines of a whole forest. -/
def renderForest : ScriptForest → List String
  | .nil => []
  | .cons n ns => renderNode n ++ renderForest ns
end

mutual
/-- The spec's expanded-length formula: a command line contributes 1, a
loop block contributes count × (expanded length of its body),
recursively. -/
def flatLenNode : ScriptNode → Nat
  | .cmdNode _ => 1
  | .loopNode countStr body => pyToInt countStr * flatLenForest body
/-- Sum of the expanded-length formula over a forest. -/
def flatLenForest : ScriptForest → Nat
  | .nil => 0
  | .cons n ns => flatLenNode n + flatLenForest ns
end

mutual
/-- The flat command sequence loop expansion should produce from a node:
the parsed command for a command line, count independent copies of the
expanded body for a loop block. -/
def flatNode : ScriptNode → List ParsedCommand
  | .cmdNode line => (parseCmd line).elim [] (fun c => [c])
  | .loopNode countStr body =>
    (List.replicate (pyToInt countStr) (flatForest body)).flatten
/-- The flat command sequence of a whole forest. -/
def flatForest : ScriptForest → List ParsedCommand
  | .nil => []
  | .cons n ns => flatNode n ++ flatForest ns
end

mutual
/-- Well-formedness of a script tree, matching what validation accepts:
a command line must not carry the `loop` prefix, must not be `end`, must
name a registered command and supply exactly its userSupplied argument
count; a loop count token must be a digit string whose rendered line
splits back into `loop` and the token. -/
def wfNode : ScriptNode → Bool
  | .cmdNode line =>
    !pyStartsWith line "loop" && line != "end" &&
    (match registryLookup ((pySplit line).headD "") with
     | some info => (pySplit line).length - 1 == userArgCount info
     | none => false)
  | .loopNode countStr body =>
    pyStartsWith ("loop " ++ countStr) "loop" &&
    (pySplit ("loop " ++ countStr) == ["loop", countStr]) &&
    pyIsDigit countStr && wfForest body
/-- Well-formedness of every node of a forest. -/
def wfForest : ScriptForest → Bool
  | .nil => true
  | .cons n ns => wfNode n && wfForest ns
end

/-- The lines left over by a `_parse_block` call are a suffix of its
input: their number never exceeds the input's. -/
theorem parseBlockF_rest_le (fuel : Nat) :
    ∀ (lines : List String) (cmds : List ParsedCommand) (rest : List String),
      parseBlockF fuel lines = some (cmds, rest) → rest.length ≤ lines.length := by
  induction fuel with
  | zero =>
    intro lines cmds rest h
    simp [parseBlockF] at h
  | succ f ih =>
    intro lines cmds rest h
    cases lines with
    | nil =>
      simp only [parseBlockF, Option.some.injEq, Prod.mk.injEq] at h
      simp [← h.2]
    | cons l ls =>
      simp only [parseBlockF] at h
      split at h
      · -- loop-prefixed line
        split at h
        · -- pySplit l = [_, countStr]
          simp only [Option.bind_eq_some, Option.some.injEq, Prod.mk.injEq] at h
          obtain ⟨br, h1, tr, h2, -, h3⟩ := h
          have b1 := ih ls br.1 br.2 h1
          have b2 := ih br.2 tr.1 tr.2 h2
          rw [← h3]
          simp only [List.length_cons]
          omega
        · exact absurd h (by simp)
      · split at h
        · -- the `end` line
          simp only [Option.some.injEq, Prod.mk.injEq] at h
          rw [← h.2]
          simp
        · -- a command line
          simp only [Option.bind_eq_some, Option.some.injEq, Prod.mk.injEq] at h
          obtain ⟨c, hc, tr, h1, -, h3⟩ := h
          have b1 := ih ls tr.1 tr.2 h1
          rw [← h3]
          simp only [List.length_cons]
          omega

/-- `_parse_block` does not depend on the fuel once the fuel exceeds the
number of input lines. -/
theorem parseBlockF_fuel_congr :
    ∀ (n fuel1 fuel2 : Nat) (lines : List String),
      lines.length ≤ n → lines.length < fuel1 → lines.length < fuel2 →
      parseBlockF fuel1 lines = parseBlockF fuel2 lines := by
  intro n
  induction n with
  | zero =>
    intro fuel1 fuel2 lines hn h1 h2
    obtain rfl : lines = [] := List.length_eq_zero.mp (Nat.le_zero.mp hn)
    obtain ⟨f1, rfl⟩ : ∃ f1, fuel1 = f1 + 1 := ⟨fuel1 - 1, by omega⟩
    obtain ⟨f2, rfl⟩ : ∃ f2, fuel2 = f2 + 1 := ⟨fuel2 - 1, by omega⟩
    rfl
  | succ n ih =>
    intro fuel1 fuel2 lines hn h1 h2
    cases lines with
    | nil =>
      obtain ⟨f1, rfl⟩ : ∃ f1, fuel1 = f1 + 1 := ⟨fuel1 - 1, by omega⟩
      obtain ⟨f2, rfl⟩ : ∃ f2, fuel2 = f2 + 1 := ⟨fuel2 - 1, by omega⟩
      rfl
    | cons l ls =>
      obtain ⟨f1, rfl⟩ : ∃ f1, fuel1 = f1 + 1 := ⟨fuel1 - 1, by omega⟩
      obtain ⟨f2, rfl⟩ : ∃ f2, fuel2 = f2 + 1 := ⟨fuel2 - 1, by omega⟩
      simp only [List.length_cons] at hn h1 h2
      have hls : parseBlockF f1 ls = parseBlockF f2 ls := by
        apply ih <;> omega
      simp only [parseBlockF]
      by_cases hl : pyStartsWith l "loop"
      · simp only [hl, if_true]
        cases hsp : pySplit l with
        | nil => rfl
        | cons p0 ps =>
          cases ps with
          | nil => rfl
          | cons p1 ps2 =>
            cases ps2 with
            | cons p2 ps3 => rfl
            | nil =>
              rw [hls]
              cases hb : parseBlockF f2 ls with
              | none => rfl
              | some br =>
                have hr1 : br.2.length ≤ ls.length :=
                  parseBlockF_rest_le f2 ls br.1 br.2 (by rw [hb])
                have hbr : parseBlockF f1 br.2 = parseBlockF f2 br.2 := by
                  apply ih <;> omega
                simp only [Option.some_bind]
                rw [hbr]
      · simp only [hl, Bool.false_eq_true, if_false]
        by_cases he : l = "end"
        · simp only [he, if_true]
        · simp only [he, if_false]
          cases parseCmd l with
          | none => rfl
          | some c =>
            simp only [Option.some_bind]
            rw [hls]

/-- `parseBlockF` with any sufficient fuel agrees with `parseBlockLines`. -/
theorem parseBlockF_eq_parseBlockLines (fuel : Nat) (lines : List String)
    (h : lines.length < fuel) : parseBlockF fuel lines = parseBlockLines lines :=
  parseBlockF_fuel_congr lines.length fuel (lines.length + 1) lines le_rfl h
    (Nat.lt_succ_self _)

/-- Scanning a concatenation of line blocks concatenates the recorded
errors and threads the loop stack: an error in an early line never stops
the scan of later lines. -/
theorem scanLines_append (l1 l2 : List String) :
    ∀ (n : Nat) (st : List String),
      scanLines (l1 ++ l2) n st =
        ((scanLines l1 n st).1 ++
           (scanLines l2 (n + l1.length) (scanLines l1 n st).2).1,
         (scanLines l2 (n + l1.length) (scanLines l1 n st).2).2) := by
  induction l1 with
  | nil => intro n st; simp [scanLines]
  | cons l ls ih =>
    intro n st
    simp only [List.cons_append, scanLines, List.length_cons, List.append_eq]
    rw [ih]
    have harith : n + (ls.length + 1) = n + 1 + ls.length := by omega
    rw [harith]
    simp [List.append_assoc]

/-- Argument resolution succeeds whenever at least as many user tokens are
supplied as there are userSupplied slots, and yields one value per
declared slot. -/
theorem resolveArgs_isSome (specs : List ArgSpec) :
    ∀ (toks : List String),
      (specs.filter (fun a => a.user)).length ≤ toks.length →
      ∃ vals, resolveArgs specs toks = some vals ∧ vals.length = specs.length := by
  induction specs with
  | nil => intro toks _; exact ⟨[], rfl, rfl⟩
  | cons a rest ih =>
    intro toks h
    cases ha : a.user with
    | true =>
      cases toks with
      | nil => simp [List.filter_cons, ha] at h
      | cons t ts =>
        simp only [List.filter_cons, ha, if_pos, List.length_cons] at h
        obtain ⟨vals, hv, hl⟩ := ih ts (by omega)
        refine ⟨Value.conv a.ty t :: vals, ?_, by simp [hl]⟩
        simp [resolveArgs, ha, hv]
    | false =>
      simp only [List.filter_cons, ha] at h
      obtain ⟨vals, hv, hl⟩ := ih toks (by simpa using h)
      refine ⟨a.default :: vals, ?_, by simp [hl]⟩
      simp [resolveArgs, ha, hv]

/-- A command line that passes validation (registered name, exact
userSupplied argument count) parses into exactly one command. -/
theorem parseCmd_of_wf (line : String) (info : CommandSpec)
    (hreg : registryLookup ((pySplit line).headD "") = some info)
    (hcount : (pySplit line).length - 1 = userArgCount info) :
    ∃ c, parseCmd line = some c ∧
      c.cmd = (pySplit line).headD "" ∧ c.funcName = info.funcName ∧
      c.args.length = info.args.length := by
  have htail : (info.args.filter (fun a => a.user)).length ≤ (pySplit line).tail.length := by
    have : (pySplit line).tail.length = (pySplit line).length - 1 := by
      cases pySplit line <;> simp
    rw [this, hcount]
    exact le_rfl
  obtain ⟨vals, hv, hvl⟩ := resolveArgs_isSome info.args (pySplit line).tail htail
  refine ⟨⟨(pySplit line).headD "", info.funcName, vals⟩, ?_, rfl, rfl, hvl⟩
  simp only [parseCmd]
  rw [hreg]
  simp only [hv]

/-- Step equation of `_parse_block` on a command line. -/
theorem parseBlockLines_cons_cmd (l : String) (rest : List String)
    (hl : pyStartsWith l "loop" = false) (he : l ≠ "end") :
    parseBlockLines (l :: rest) =
      (parseCmd l).bind (fun c =>
        (parseBlockLines rest).map (fun tr => (c :: tr.1, tr.2))) := by
  simp only [parseBlockLines, List.length_cons, parseBlockF, hl, Bool.false_eq_true,
    if_false, if_neg he]
  cases parseCmd l with
  | none => rfl
  | some c =>
    simp only [Option.some_bind]
    rw [show parseBlockF (rest.length + 1) rest = parseBlockLines rest from rfl]
    cases parseBlockLines rest with
    | none => rfl
    | some tr => rfl

/-- Step equation of `_parse_block` on an `end` line: the block closes and
the lines after `end` are handed back. -/
theorem parseBlockLines_cons_end (rest : List String) :
    parseBlockLines ("end" :: rest) = some ([], rest) := by
  have hne : pyStartsWith "end" "loop" = false := by decide
  simp only [parseBlockLines, List.length_cons, parseBlockF, hne, Bool.false_eq_true,
    if_false]
  simp

/-- Step equation of `_parse_block` on a loop header line: parse the body
block, repeat it `count` times, and continue after the matching `end`. -/
theorem parseBlockLines_cons_loop (l countStr : String) (rest : List String)
    (hl : pyStartsWith l "loop" = true) (hsp : pySplit l = ["loop", countStr]) :
    parseBlockLines (l :: rest) =
      (parseBlockLines rest).bind (fun br =>
        (parseBlockLines br.2).bind (fun tr =>
          some ((List.replicate (pyToInt countStr) br.1).flatten ++ tr.1, tr.2))) := by
  simp only [parseBlockLines, List.length_cons, parseBlockF, hl, if_true]
  rw [hsp]
  show (parseBlockF (rest.length + 1) rest).bind (fun br =>
      (parseBlockF (rest.length + 1) br.2).bind (fun tr =>
        some ((List.replicate (pyToInt countStr) br.1).flatten ++ tr.1, tr.2))) = _
  rw [show parseBlockF (rest.length + 1) rest = parseBlockLines rest from rfl]
  cases hpr : parseBlockLines rest with
  | none => rfl
  | some br =>
    simp only [Option.some_bind]
    have hb : br.2.length ≤ rest.length :=
      parseBlockF_rest_le (rest.length + 1) rest br.1 br.2 hpr
    rw [parseBlockF_eq_parseBlockLines (rest.length + 1) br.2 (by omega)]
    rfl

mutual

/-- Parsing the rendered lines of a well-formed node prepends the node's
flat expansion to whatever the following lines parse into. -/
theorem parseRenderNode (nd : ScriptNode) (h : wfNode nd = true) (rest : List String) :
    parseBlockLines (renderNode nd ++ rest) =
      (parseBlockLines rest).map (fun tr => (flatNode nd ++ tr.1, tr.2)) := by
  cases nd with
  | cmdNode line =>
    simp only [wfNode, Bool.and_eq_true, Bool.not_eq_true', bne_iff_ne, ne_eq] at h
    obtain ⟨⟨hl, he⟩, hcmd⟩ := h
    cases hreg : registryLookup ((pySplit line).headD "") with
    | none => rw [hreg] at hcmd; simp at hcmd
    | some info =>
      rw [hreg] at hcmd
      have hcount : (pySplit line).length - 1 = userArgCount info := by
        simpa using hcmd
      obtain ⟨c, hc, -, -, -⟩ := parseCmd_of_wf line info hreg hcount
      simp only [renderNode, List.cons_append, List.nil_append]
      rw [parseBlockLines_cons_cmd line rest hl he, hc]
      simp only [Option.some_bind]
      cases parseBlockLines rest with
      | none => rfl
      | some tr => simp [flatNode, hc]
  | loopNode countStr body =>
    simp only [wfNode, Bool.and_eq_true] at h
    obtain ⟨⟨⟨hpre, hsp⟩, _⟩, hwf⟩ := h
    have hsp2 : pySplit ("loop " ++ countStr) = ["loop", countStr] := by
      exact_mod_cast eq_of_beq hsp
    simp only [renderNode, List.cons_append, List.append_assoc, List.singleton_append,
      List.nil_append]
    rw [parseBlockLines_cons_loop ("loop " ++ countStr) countStr
      (renderForest body ++ "end" :: rest) hpre hsp2]
    rw [parseRenderForest body hwf ("end" :: rest)]
    rw [parseBlockLines_cons_end rest]
    simp only [Option.map_some', Option.some_bind, List.append_nil]
    cases parseBlockLines rest with
    | none => rfl
    | some tr => simp [flatNode]

/-- Parsing the rendered lines of a well-formed forest prepends the
forest's flat expansion to whatever the following lines parse into. -/
theorem parseRenderForest (ns : ScriptForest) (h : wfForest ns = true) (rest : List String) :
    parseBlockLines (renderForest ns ++ rest) =
      (parseBlockLines rest).map (fun tr => (flatForest ns ++ tr.1, tr.2)) := by
  cases ns with
  | nil =>
    simp only [renderForest, List.nil_append, flatForest]
    cases parseBlockLines rest with
    | none => rfl
    | some tr => simp
  | cons nd ns2 =>
    simp only [wfForest, Bool.and_eq_true] at h
    obtain ⟨h1, h2⟩ := h
    simp only [renderForest, List.append_assoc]
    rw [parseRenderNode nd h1 (renderForest ns2 ++ rest),
      parseRenderForest ns2 h2 rest]
    cases parseBlockLines rest with
    | none => rfl
    | some tr => simp [flatForest, List.append_assoc]

end

/-- `check_syntax` on an `end` line with an open loop: pop the stack,
record nothing. -/
theorem checkLine_end (n : Nat) (hd : String) (tl : List String) :
    checkLine n "end" (hd :: tl) = ([], tl) := by
  have hne : pyStartsWith "end" "loop" = false := by decide
  simp [checkLine, hne]

/-- `check_syntax` on a valid loop header: push a marker, record
nothing. -/
theorem checkLine_loop_ok (n : Nat) (line c : String) (st : List String)
    (hl : pyStartsWith line "loop" = true) (hsp : pySplit line = ["loop", c])
    (hdig : pyIsDigit c = true) :
    checkLine n line st = ([], "loop" :: st) := by
  simp [checkLine, hl, hsp, hdig]

/-- `check_syntax` on a known command line with the right argument count:
record nothing, leave the stack alone. -/
theorem checkLine_cmd_ok (n : Nat) (line : String) (st : List String)
    (info : CommandSpec)
    (hl : pyStartsWith line "loop" = false) (he : line ≠ "end")
    (hreg : registryLookup ((pySplit line).headD "") = some info)
    (hcount : (pySplit line).length - 1 = userArgCount info) :
    checkLine n line st = ([], st) := by
  simp only [checkLine, hl, Bool.false_eq_true, if_false, if_neg he]
  rw [hreg]
  simp [hcount]

mutual

/-- The rendered lines of a well-formed node scan without recording any
error and return the loop stack unchanged. -/
theorem scanRenderNode (nd : ScriptNode) (h : wfNode nd = true) :
    ∀ (n : Nat) (st : List String), scanLines (renderNode nd) n st = ([], st) := by
  cases nd with
  | cmdNode line =>
    intro n st
    simp only [wfNode, Bool.and_eq_true, Bool.not_eq_true', bne_iff_ne, ne_eq] at h
    obtain ⟨⟨hl, he⟩, hcmd⟩ := h
    cases hreg : registryLookup ((pySplit line).headD "") with
    | none => rw [hreg] at hcmd; simp at hcmd
    | some info =>
      rw [hreg] at hcmd
      have hcount : (pySplit line).length - 1 = userArgCount info := by
        simpa using hcmd
      simp [renderNode, scanLines, checkLine_cmd_ok n line st info hl he hreg hcount]
  | loopNode countStr body =>
    intro n st
    simp only [wfNode, Bool.and_eq_true] at h
    obtain ⟨⟨⟨hpre, hsp⟩, hdig⟩, hwf⟩ := h
    have hsp2 : pySplit ("loop " ++ countStr) = ["loop", countStr] := by
      exact_mod_cast eq_of_beq hsp
    simp only [renderNode, scanLines]
    rw [checkLine_loop_ok n ("loop " ++ countStr) countStr st hpre hsp2 hdig]
    rw [scanLines_append (renderForest body) ["end"] (n + 1) ("loop" :: st)]
    rw [scanRenderForest body hwf (n + 1) ("loop" :: st)]
    simp [scanLines, checkLine_end]

/-- The rendered lines of a well-formed forest scan without recording any
error and return the loop stack unchanged. -/
theorem scanRenderForest (ns : ScriptForest) (h : wfForest ns = true) :
    ∀ (n : Nat) (st : List String), scanLines (renderForest ns) n st = ([], st) := by
  cases ns with
  | nil => intro n st; simp [renderForest, scanLines]
  | cons nd ns2 =>
    intro n st
    simp only [wfForest, Bool.and_eq_true] at h
    obtain ⟨h1, h2⟩ := h
    simp only [renderForest]
    rw [scanLines_append (renderNode nd) (renderForest ns2) n st]
    rw [scanRenderNode nd h1 n st, scanRenderForest ns2 h2 (n + (renderNode nd).length) st]
    simp

end

/-- Flattening `k` copies of a block multiplies its length by `k`. -/
theorem length_flatten_replicate {α : Type} (k : Nat) (l : List α) :
    ((List.replicate k l).flatten).length = k * l.length := by
  induction k with
  | zero => simp
  | succ k ih => simp [List.replicate_succ, ih, Nat.succ_mul, Nat.add_comm]

mutual

/-- The flat expansion of a well-formed node has the spec's recursive
length. -/
theorem flatNode_length (nd : ScriptNode) (h : wfNode nd = true) :
    (flatNode nd).length = flatLenNode nd := by
  cases nd with
  | cmdNode line =>
    simp only [wfNode, Bool.and_eq_true, Bool.not_eq_true', bne_iff_ne, ne_eq] at h
    obtain ⟨⟨hl, he⟩, hcmd⟩ := h
    cases hreg : registryLookup ((pySplit line).headD "") with
    | none => rw [hreg] at hcmd; simp at hcmd
    | some info =>
      rw [hreg] at hcmd
      have hcount : (pySplit line).length - 1 = userArgCount info := by
        simpa using hcmd
      obtain ⟨c, hc, -, -, -⟩ := parseCmd_of_wf line info hreg hcount
      simp [flatNode, flatLenNode, hc]
  | loopNode countStr body =>
    simp only [wfNode, Bool.and_eq_true] at h
    obtain ⟨-, hwf⟩ := h
    simp only [flatNode, flatLenNode, length_flatten_replicate]
    rw [flatForest_length body hwf]

/-- The flat expansion of a well-formed forest has the spec's recursive
length. -/
theorem flatForest_length (ns : ScriptForest) (h : wfForest ns = true) :
    (flatForest ns).length = flatLenForest ns := by
  cases ns with
  | nil => simp [flatForest, flatLenForest]
  | cons nd ns2 =>
    simp only [wfForest, Bool.and_eq_true] at h
    obtain ⟨h1, h2⟩ := h
    simp only [flatForest, flatLenForest, List.length_append]
    rw [flatNode_length nd h1, flatForest_length ns2 h2]

end

/-- With the cancellation flag never set, the loop invokes every command
in order and emits exactly the per-command log entries. -/
theorem execLoop_noCancel (oracle : ParsedCommand → PyResult) (showV : Value → String) :
    ∀ (cmds : List ParsedCommand) (i : Nat),
      execLoop oracle showV (fun _ => false) cmds i =
        ((cmds.map (logsFor oracle showV)).flatten, cmds) := by
  intro cmds
  induction cmds with
  | nil => intro i; simp [execLoop]
  | cons c rest ih =>
    intro i
    simp only [execLoop]
    rw [ih (i + 1)]
    simp [logsFor]

/-- With the cancellation flag first observed set at check `k`, exactly
the first `k - i` remaining commands run (`i` is the current check
index). -/
theorem execLoop_cancelFrom (oracle : ParsedCommand → PyResult) (showV : Value → String)
    (k : Nat) :
    ∀ (cmds : List ParsedCommand) (i : Nat),
      execLoop oracle showV (fun j => decide (k ≤ j)) cmds i =
        (((cmds.take (k - i)).map (logsFor oracle showV)).flatten, cmds.take (k - i)) := by
  intro cmds
  induction cmds with
  | nil => intro i; simp [execLoop]
  | cons c rest ih =>
    intro i
    by_cases hk : k ≤ i
    · have h0 : k - i = 0 := by omega
      have h1 : k - (i + 1) = 0 := by omega
      simp only [execLoop]
      rw [ih (i + 1)]
      simp [hk, h0, h1]
    · have hki : k - i = (k - (i + 1)) + 1 := by omega
      simp only [execLoop]
      rw [ih (i + 1)]
      rw [hki]
      simp [hk, List.take_succ_cons, logsFor]

/-- Mapping a function over a list maps it over the optional last
element. -/
theorem getLastOpt_map {A B : Type} (f : A → B) (l : List A) :
    (l.map f).getLast? = (l.getLast?).map f := by
  induction l with
  | nil => rfl
  | cons a rest ih =>
    cases rest with
    | nil => rfl
    | cons b rest2 => simpa using ih

/-- C1: evaluation of `TCPClient.query`'s reply handling at the claim's
inputs.  On the well-formed reply `None|OK|1,2,3` the code returns the
error field wrapped in a one-element list (`[""]`), not the plain string
`""` the claim (and the function's own docstring) promises; the response
and variable fields, and the malformed-reply case, behave as claimed. -/
theorem c1_query_eval :
    query "None|OK|1,2,3" = (.list [""], "OK", ["1", "2", "3"]) ∧
    query "None|OK|1,2,3" ≠ (.str "", "OK", ["1", "2", "3"]) ∧
    query "err|resp" = (.str "Malformed response", "err|resp", []) := by
  refine ⟨by decide, by decide, by decide⟩

/-- C2: the registry entry `xy.Set` declares two userSupplied slots but
binds `ScriptingInterface.setZ`, whose signature takes one argument.
Every line `xy.Set <x> <y>` passes the per-line validation check and
resolves to two argument values, while the bound callable accepts one —
the wrong-arity TypeError condition at invocation. -/
theorem c2_xySet_arity_mismatch :
    (∃ info, registryLookup "xy.Set" = some info ∧ userArgCount info = 2 ∧
      info.funcName = "ScriptingInterface.setZ") ∧
    siArity "ScriptingInterface.setZ" = some 1 ∧
    ∀ (line x y : String) (num : Nat) (stack : List String),
      pySplit line = ["xy.Set", x, y] →
      pyStartsWith line "loop" = false → line ≠ "end" →
      checkLine num line stack = ([], stack) ∧
      ∃ c, parseCmd line = some c ∧ c.funcName = "ScriptingInterface.setZ" ∧
        c.args.length = 2 ∧ siArity c.funcName ≠ some c.args.length := by
  refine ⟨⟨_, rfl, by decide, rfl⟩, rfl, ?_⟩
  intro line x y num stack hsp hl he
  have hreg : registryLookup ((pySplit line).headD "") =
      some ⟨"ScriptingInterface.setZ",
        [⟨"x (m)", "np.float64", .lit "0.0", true⟩,
         ⟨"y (m)", "np.float64", .lit "0.0", true⟩]⟩ := by
    rw [hsp]; rfl
  have hcount : (pySplit line).length - 1 =
      userArgCount ⟨"ScriptingInterface.setZ",
        [⟨"x (m)", "np.float64", .lit "0.0", true⟩,
         ⟨"y (m)", "np.float64", .lit "0.0", true⟩]⟩ := by
    rw [hsp]; rfl
  refine ⟨checkLine_cmd_ok num line stack _ hl he hreg hcount, ?_⟩
  obtain ⟨c, hc, -, hfn, hargs⟩ := parseCmd_of_wf line _ hreg hcount
  refine ⟨c, hc, hfn, by simpa using hargs, ?_⟩
  rw [hfn, hargs]
  decide

/-- C2 witness: the line `xy.Set 1 2` passes the per-line check and
resolves two arguments for the one-parameter bound method. -/
theorem c2_xySet_arity_mismatch_witness :
    checkLine 1 "xy.Set 1 2" [] = ([], []) ∧
    ∃ c, parseCmd "xy.Set 1 2" = some c ∧ c.funcName = "ScriptingInterface.setZ" ∧
      c.args.length = 2 ∧ siArity c.funcName ≠ some c.args.length :=
  c2_xySet_arity_mismatch.2.2 "xy.Set 1 2" "1" "2" 1 [] (by decide) (by decide) (by decide)

/-- C3, counterexample: `check_syntax` accepts `loop 0` (Python
`str.isdigit` is true on `"0"`), so a script whose only loop has count 0
validates cleanly, its LoopNode count is 0 — not strictly positive — and
expansion repeats the body zero times. -/
theorem c3_loop_zero_counterexample :
    checkSyntax "loop 0\nwait 1\nend" = [] ∧
    preprocess "loop 0\nwait 1\nend" =
      renderForest (.cons (.loopNode "0" (.cons (.cmdNode "wait 1") .nil)) .nil) ∧
    wfForest (.cons (.loopNode "0" (.cons (.cmdNode "wait 1") .nil)) .nil) = true ∧
    pyToInt "0" = 0 ∧
    parse_commands "loop 0\nwait 1\nend" = some (some [], []) := by
  refine ⟨by decide, by decide, by decide, by decide, by decide⟩

/-- C3, amended: a loop-prefixed line is accepted (no error recorded, an
open-loop marker pushed) exactly when it has two whitespace-separated
tokens and the second is a digit string — a nonnegative integer literal,
zero included; hence a validated LoopNode count is a nonnegative integer,
not necessarily positive. -/
theorem c3_loop_digit_amended (num : Nat) (line : String) (stack : List String)
    (hl : pyStartsWith line "loop" = true) :
    checkLine num line stack = ([], "loop" :: stack) ↔
      ((pySplit line).length = 2 ∧ pyIsDigit ((pySplit line).getD 1 "") = true) := by
  simp only [checkLine, hl, if_true]
  by_cases h2 : (pySplit line).length = 2
  · by_cases hd : pyIsDigit ((pySplit line).getD 1 "") = true
    · simp [h2, hd]
    · simp [h2, hd]
  · simp [h2]

/-- C3 witness: `loop 3` is accepted by the amended acceptance
condition. -/
theorem c3_loop_digit_amended_witness :
    checkLine 1 "loop 3" [] = ([], ["loop"]) :=
  (c3_loop_digit_amended 1 "loop 3" [] (by decide)).mpr (by decide)

/-- C4, counterexample: the line `loopx` has first token `loopx`, not
`loop`, yet `check_syntax` classifies it as a loop directive (prefix
test) and records an invalid-loop-syntax error instead of the
unknown-command error the claim predicts. -/
theorem c4_first_token_counterexample :
    (pySplit "loopx").headD "" ≠ "loop" ∧ "loopx" ≠ "end" ∧
    checkSyntax "loopx" = [invalidLoopMsg 1 "loopx"] ∧
    checkSyntax "loopx" ≠ [unknownCmdMsg 1 "loopx"] := by
  refine ⟨by decide, by decide, by decide, by decide⟩

/-- C4, amended: the validator classifies a line as a loop directive
exactly when the line starts with the prefix `loop` (`str.startswith`,
not first-token equality).  A line without that prefix and different
from `end` goes to command handling — registry lookup and argument-count
check, never an invalid-loop error, never a stack push — and a line with
the prefix always goes to loop handling. -/
theorem c4_loop_prefix_amended (num : Nat) (line : String) (stack : List String) :
    (pyStartsWith line "loop" = false → line ≠ "end" →
      checkLine num line stack =
        ((match registryLookup ((pySplit line).headD "") with
          | none => [unknownCmdMsg num line]
          | some info =>
            if (pySplit line).length - 1 ≠ userArgCount info then
              [wrongArgsMsg num ((pySplit line).headD "") (userArgCount info)
                ((pySplit line).length - 1) line]
            else []), stack)) ∧
    (pyStartsWith line "loop" = true →
      checkLine num line stack = ([invalidLoopMsg num line], stack) ∨
      checkLine num line stack = ([], "loop" :: stack)) := by
  constructor
  · intro hl he
    simp only [checkLine, hl, Bool.false_eq_true, if_false, if_neg he]
    cases registryLookup ((pySplit line).headD "") with
    | none => rfl
    | some info =>
      by_cases hcnt : (pySplit line).length - 1 ≠ userArgCount info
      · simp [hcnt]
      · simp [hcnt]
  · intro hl
    simp only [checkLine, hl, if_true]
    by_cases hc :
        (decide ((pySplit line).length ≠ 2) || !pyIsDigit ((pySplit line).getD 1 "")) = true
    · left; rw [if_pos hc]
    · right; rw [if_neg hc]

/-- C4 witness: a known command line is handled by command checking, and
`loopx` is handled as a loop directive. -/
theorem c4_loop_prefix_amended_witness :
    checkLine 1 "wait 1" [] = ([], []) ∧
    (checkLine 1 "loopx" [] = ([invalidLoopMsg 1 "loopx"], []) ∨
      checkLine 1 "loopx" [] = ([], ["loop"])) := by
  constructor
  · have h := (c4_loop_prefix_amended 1 "wait 1" []).1 (by decide) (by decide)
    rw [h]; decide
  · exact (c4_loop_prefix_amended 1 "loopx" []).2 (by decide)

/-- C5: validation scans the whole script — the errors of concatenated
line blocks are the concatenation of their errors, so an early error
never stops the scan — and a nonempty error list blocks the run:
`parse_commands` returns no command sequence (Python `None`) together
with the complete error list, and the run thread emits the error popup
and the `Syntax errors` status with no log entry and no command
invoked. -/
theorem c5_validation_blocks :
    (∀ (l1 l2 : List String) (n : Nat) (st : List String),
      scanLines (l1 ++ l2) n st =
        ((scanLines l1 n st).1 ++
           (scanLines l2 (n + l1.length) (scanLines l1 n st).2).1,
         (scanLines l2 (n + l1.length) (scanLines l1 n st).2).2)) ∧
    (∀ script : String, checkSyntax script ≠ [] →
      parse_commands script = some (none, checkSyntax script)) ∧
    (∀ (oracle : ParsedCommand → PyResult) (showV : Value → String)
      (cancel : Nat → Bool) (script : String), checkSyntax script ≠ [] →
      runThread oracle showV cancel script =
        some ⟨["Syntax errors"], [syntaxErrorsMsg (checkSyntax script)], [], []⟩) := by
  have hp : ∀ script : String, checkSyntax script ≠ [] →
      parse_commands script = some (none, checkSyntax script) := by
    intro script h
    simp [parse_commands, h]
  refine ⟨scanLines_append, hp, ?_⟩
  intro oracle showV cancel script h
  rw [runThread, hp script h]
  simp [h]

set_option maxRecDepth 4096 in
/-- C5 witness: a script hitting all five syntax-error kinds yields the
five errors together, commands `None`, and a blocked run. -/
theorem c5_validation_blocks_witness :
    parse_commands "foo\nloop\nend\nwait 1 2\nloop 3" =
      some (none,
        [unknownCmdMsg 1 "foo", invalidLoopMsg 2 "loop", endNoLoopMsg 3 "end",
         wrongArgsMsg 4 "wait" 1 2 "wait 1 2", unclosedMsg]) ∧
    runThread (fun _ => ("", "", [])) (fun _ => "") (fun _ => false)
        "foo\nloop\nend\nwait 1 2\nloop 3" =
      some ⟨["Syntax errors"],
        [syntaxErrorsMsg
          [unknownCmdMsg 1 "foo", invalidLoopMsg 2 "loop", endNoLoopMsg 3 "end",
           wrongArgsMsg 4 "wait" 1 2 "wait 1 2", unclosedMsg]], [], []⟩ := by
  constructor
  · rw [c5_validation_blocks.2.1 "foo\nloop\nend\nwait 1 2\nloop 3" (by decide)]
    decide
  · rw [c5_validation_blocks.2.2 (fun _ => ("", "", [])) (fun _ => "") (fun _ => false)
      "foo\nloop\nend\nwait 1 2\nloop 3" (by decide)]
    decide

/-- C6: if the cancellation flag is first seen set at the check before
command `k + 1` (0-indexed check `k`), the engine runs exactly the first
`k` commands — they produce their log entries, the commands after them
produce none and are never invoked — and the run still emits `Running`
followed by the final status `Finished`. -/
theorem c6_cancel_between_commands (oracle : ParsedCommand → PyResult)
    (showV : Value → String) (cmds : List ParsedCommand) (k : Nat) :
    executeEngine oracle showV (fun j => decide (k ≤ j)) cmds =
      ⟨["Running", "Finished"], [],
       ((cmds.take k).map (logsFor oracle showV)).flatten, cmds.take k⟩ := by
  simp only [executeEngine]
  rw [execLoop_cancelFrom oracle showV k cmds 0]
  simp

/-- C7: an executed command (one whose cancellation check read false) logs
exactly one Request entry whose status is `OK` when the returned
errorText is empty and the errorText itself otherwise, then one Response
entry exactly when the returned variable list is nonempty, and the loop
then continues with the remaining commands whatever the errorText was. -/
theorem c7_per_command_logging (oracle : ParsedCommand → PyResult)
    (showV : Value → String) (cancel : Nat → Bool) (c : ParsedCommand)
    (cs : List ParsedCommand) (i : Nat) (h : cancel i = false) :
    execLoop oracle showV cancel (c :: cs) i =
      ((⟨"Request", c.cmd ++ " " ++ joinWith " " (c.args.map showV),
          if (oracle c).1 = "" then "OK" else (oracle c).1⟩ ::
        (if (oracle c).2.2 = [] then ([] : List LogEntry)
         else [⟨"Response", "[" ++ joinWith ", " (oracle c).2.2 ++ "]", ""⟩])) ++
        (execLoop oracle showV cancel cs (i + 1)).1,
       c :: (execLoop oracle showV cancel cs (i + 1)).2) := by
  have hstat : (if (oracle c).1.length ≠ 0 then (oracle c).1 else "OK") =
      (if (oracle c).1 = "" then "OK" else (oracle c).1) := by
    by_cases he : (oracle c).1 = ""
    · simp [he]
    · have hlen : (oracle c).1.length ≠ 0 := by
        intro h0
        exact he (by
          have : (oracle c).1.data.length = 0 := h0
          cases hd : (oracle c).1 with
          | mk data => rw [hd] at this; simp at this; simp [hd, this])
      simp [he, hlen]
  have hresp : (if (oracle c).2.2.length > 0 then
        [(⟨"Response", "[" ++ joinWith ", " (oracle c).2.2 ++ "]", ""⟩ : LogEntry)]
      else []) =
      (if (oracle c).2.2 = [] then ([] : List LogEntry)
       else [⟨"Response", "[" ++ joinWith ", " (oracle c).2.2 ++ "]", ""⟩]) := by
    by_cases hv : (oracle c).2.2 = []
    · simp [hv]
    · simp [hv, List.length_pos.mpr hv]
  simp only [execLoop, h]
  rw [hstat, hresp]
  simp

/-- C7 witness: a command whose capability reports errorText `E` and one
variable logs a Request with status `E` and a Response entry, and a
following command still runs. -/
theorem c7_per_command_logging_witness :
    execLoop (fun _ => ("E", "", ["v"])) (fun _ => "x") (fun _ => false)
        [⟨"wait", "ScriptingInterface.wait", [.lit "5"]⟩,
         ⟨"bias.Get", "Nanonis.Bias_Get", []⟩] 0 =
      ([⟨"Request", "wait x", "E"⟩, ⟨"Response", "[v]", ""⟩,
        ⟨"Request", "bias.Get ", "E"⟩, ⟨"Response", "[v]", ""⟩],
       [⟨"wait", "ScriptingInterface.wait", [.lit "5"]⟩,
        ⟨"bias.Get", "Nanonis.Bias_Get", []⟩]) := by
  rw [c7_per_command_logging (fun _ => ("E", "", ["v"])) (fun _ => "x") (fun _ => false)
    ⟨"wait", "ScriptingInterface.wait", [.lit "5"]⟩
    [⟨"bias.Get", "Nanonis.Bias_Get", []⟩] 0 rfl]
  decide

/-- C8: for every well-formed script tree — whose rendering is
validation-clean — loop expansion produces the flat sequence whose length
is the spec's recursive sum (1 per command line, count × expanded body
length per loop block, at any nesting depth); and the script
`loop 2\nwait 1\nend` expands to exactly two `wait 1` commands in
order. -/
theorem c8_expansion_length :
    (∀ ns : ScriptForest, wfForest ns = true →
      checkSyntaxLines (renderForest ns) = [] ∧
      parseBlockLines (renderForest ns) = some (flatForest ns, []) ∧
      (flatForest ns).length = flatLenForest ns) ∧
    parse_commands "loop 2\nwait 1\nend" =
      some (some [⟨"wait", "ScriptingInterface.wait", [.conv "np.uint32" "1"]⟩,
                  ⟨"wait", "ScriptingInterface.wait", [.conv "np.uint32" "1"]⟩], []) := by
  constructor
  · intro ns h
    refine ⟨?_, ?_, flatForest_length ns h⟩
    · simp [checkSyntaxLines, scanRenderForest ns h 1 []]
    · have hp := parseRenderForest ns h []
      rw [List.append_nil] at hp
      rw [hp]
      simp [parseBlockLines, parseBlockF]
  · decide

/-- C8 witness: the general part applied to the tree of
`loop 2\nwait 1\nend`. -/
theorem c8_expansion_length_witness :
    checkSyntaxLines
        (renderForest (.cons (.loopNode "2" (.cons (.cmdNode "wait 1") .nil)) .nil)) = [] ∧
    parseBlockLines
        (renderForest (.cons (.loopNode "2" (.cons (.cmdNode "wait 1") .nil)) .nil)) =
      some (flatForest (.cons (.loopNode "2" (.cons (.cmdNode "wait 1") .nil)) .nil), []) ∧
    (flatForest (.cons (.loopNode "2" (.cons (.cmdNode "wait 1") .nil)) .nil)).length =
      flatLenForest (.cons (.loopNode "2" (.cons (.cmdNode "wait 1") .nil)) .nil) :=
  c8_expansion_length.1 (.cons (.loopNode "2" (.cons (.cmdNode "wait 1") .nil)) .nil)
    (by decide)

/-- C10: `ScriptingInterface.execute` raises instead of returning whenever
no command runs: with syntax errors `parse_commands` hands it `None` and
the for-loop raises a TypeError; with a clean script expanding to an
empty sequence the result locals are never bound and the return raises a
NameError; and when commands do run it returns exactly the result triple
of the last executed command. -/
theorem c10_execute_raises (oracle : ParsedCommand → PyResult) (script : String) :
    (checkSyntax script ≠ [] →
      executeSI oracle script = some (.error .typeError)) ∧
    (checkSyntax script = [] → ∀ rest : List String,
      parseBlockLines (preprocess script) = some ([], rest) →
      executeSI oracle script = some (.error .nameError)) ∧
    (checkSyntax script = [] → ∀ (cs : List ParsedCommand) (rest : List String)
      (c : ParsedCommand),
      parseBlockLines (preprocess script) = some (cs, rest) → cs.getLast? = some c →
      executeSI oracle script = some (.ok (oracle c))) := by
  refine ⟨?_, ?_, ?_⟩
  · intro h
    simp [executeSI, parse_commands, h]
  · intro h rest hp
    simp [executeSI, parse_commands, h, hp]
  · intro h cs rest c hp hlast
    have hmap : (cs.map oracle).getLast? = some (oracle c) := by
      rw [getLastOpt_map, hlast]
      rfl
    simp [executeSI, parse_commands, h, hp, hmap]

/-- C10 witness: a script with an unknown command raises TypeError, a
clean script expanding to nothing raises NameError, and `wait 1` returns
the last (only) command's triple. -/
theorem c10_execute_raises_witness :
    executeSI (fun _ => ("", "ok", [])) "foo" = some (.error .typeError) ∧
    executeSI (fun _ => ("", "ok", [])) "loop 2\nend" = some (.error .nameError) ∧
    executeSI (fun _ => ("", "ok", [])) "wait 1" = some (.ok ("", "ok", [])) := by
  refine ⟨(c10_execute_raises (fun _ => ("", "ok", [])) "foo").1 (by decide),
    (c10_execute_raises (fun _ => ("", "ok", [])) "loop 2\nend").2.1 (by decide) []
      (by decide),
    (c10_execute_raises (fun _ => ("", "ok", [])) "wait 1").2.2 (by decide)
      [⟨"wait", "ScriptingInterface.wait", [.conv "np.uint32" "1"]⟩] []
      ⟨"wait", "ScriptingInterface.wait", [.conv "np.uint32" "1"]⟩
      (by decide) (by decide)⟩

/-- C9: for a validated command line (as many user tokens as userSupplied
slots), resolution walks the ArgSpecs in declared order and yields one
value per slot: position `i` receives the declared default whenever slot
`i` is not userSupplied, and otherwise the conversion, by slot `i`'s
semantic type, of the next unused user token — the token whose index is
the number of userSupplied slots before `i`.  User tokens therefore map
left-to-right onto userSupplied slots only. -/
theorem c9_argument_resolution (specs : List ArgSpec) (toks : List String)
    (h : toks.length = (specs.filter (fun a => a.user)).length) :
    ∃ vals, resolveArgs specs toks = some vals ∧
      vals.length = specs.length ∧
      ∀ i, i < specs.length →
        vals.getD i (Value.lit "") =
          (if (specs.getD i ⟨"", "", Value.lit "", false⟩).user then
            Value.conv (specs.getD i ⟨"", "", Value.lit "", false⟩).ty
              (toks.getD (((specs.take i).filter (fun a => a.user)).length) "")
          else (specs.getD i ⟨"", "", Value.lit "", false⟩).default) := by
  induction specs generalizing toks with
  | nil => exact ⟨[], rfl, rfl, fun i hi => absurd hi (by simp)⟩
  | cons a rest ih =>
    cases ha : a.user with
    | true =>
      cases toks with
      | nil =>
        rw [List.filter_cons] at h
        simp [ha] at h
      | cons t ts =>
        rw [List.filter_cons] at h
        simp only [ha, if_pos, List.length_cons] at h
        obtain ⟨vals, hv, hlen, hidx⟩ := ih ts (by omega)
        refine ⟨Value.conv a.ty t :: vals, ?_, by simp [hlen], ?_⟩
        · simp [resolveArgs, ha, hv]
        · intro i hi
          cases i with
          | zero => simp [ha]
          | succ i =>
            have hi2 : i < rest.length := by simpa using hi
            have hrec := hidx i hi2
            simp only [List.getD_cons_succ, List.take_succ_cons, List.filter_cons, ha,
              if_pos, List.length_cons]
            rw [hrec]
    | false =>
      rw [List.filter_cons] at h
      simp only [ha, Bool.false_eq_true, if_false] at h
      obtain ⟨vals, hv, hlen, hidx⟩ := ih toks h
      refine ⟨a.default :: vals, ?_, by simp [hlen], ?_⟩
      · simp [resolveArgs, ha, hv]
      · intro i hi
        cases i with
        | zero => simp [ha]
        | succ i =>
          have hi2 : i < rest.length := by simpa using hi
          have hrec := hidx i hi2
          simp only [List.getD_cons_succ, List.take_succ_cons, List.filter_cons, ha,
            Bool.false_eq_true, if_false]
          rw [hrec]

/-- C9 witness: a mixed declaration (default, user, default, user) with
two tokens resolves defaults from the registry literals and maps the
tokens left-to-right onto the user slots only. -/
theorem c9_argument_resolution_witness :
    resolveArgs
        [⟨"n", "np.int32", Value.lit "1", false⟩,
         ⟨"p", "np.float32", Value.lit "0.0", true⟩,
         ⟨"q", "str", Value.lit "", false⟩,
         ⟨"r", "np.uint32", Value.lit "5", true⟩] ["A", "B"] =
      some [Value.lit "1", Value.conv "np.float32" "A", Value.lit "",
            Value.conv "np.uint32" "B"] ∧
    (∃ vals, resolveArgs
        [⟨"n", "np.int32", Value.lit "1", false⟩,
         ⟨"p", "np.float32", Value.lit "0.0", true⟩,
         ⟨"q", "str", Value.lit "", false⟩,
         ⟨"r", "np.uint32", Value.lit "5", true⟩] ["A", "B"] = some vals ∧
      vals.length = 4 ∧
      ∀ i, i < 4 →
        vals.getD i (Value.lit "") =
          (if (([⟨"n", "np.int32", Value.lit "1", false⟩,
              ⟨"p", "np.float32", Value.lit "0.0", true⟩,
              ⟨"q", "str", Value.lit "", false⟩,
              ⟨"r", "np.uint32", Value.lit "5", true⟩] : List ArgSpec).getD i
                ⟨"", "", Value.lit "", false⟩).user then
            Value.conv (([⟨"n", "np.int32", Value.lit "1", false⟩,
              ⟨"p", "np.float32", Value.lit "0.0", true⟩,
              ⟨"q", "str", Value.lit "", false⟩,
              ⟨"r", "np.uint32", Value.lit "5", true⟩] : List ArgSpec).getD i
                ⟨"", "", Value.lit "", false⟩).ty
              ((["A", "B"] : List String).getD
                (((([⟨"n", "np.int32", Value.lit "1", false⟩,
                  ⟨"p", "np.float32", Value.lit "0.0", true⟩,
                  ⟨"q", "str", Value.lit "", false⟩,
                  ⟨"r", "np.uint32", Value.lit "5", true⟩] : List ArgSpec).take i).filter
                    (fun a => a.user)).length) "")
          else (([⟨"n", "np.int32", Value.lit "1", false⟩,
              ⟨"p", "np.float32", Value.lit "0.0", true⟩,
              ⟨"q", "str", Value.lit "", false⟩,
              ⟨"r", "np.uint32", Value.lit "5", true⟩] : List ArgSpec).getD i
                ⟨"", "", Value.lit "", false⟩).default)) :=
  ⟨by decide,
    c9_argument_resolution
      [⟨"n", "np.int32", Value.lit "1", false⟩,
       ⟨"p", "np.float32", Value.lit "0.0", true⟩,
       ⟨"q", "str", Value.lit "", false⟩,
       ⟨"r", "np.uint32", Value.lit "5", true⟩] ["A", "B"] (by decide)⟩

end Aunis
